import Mathlib

/-!
Verification of the session and framing core of libnetconf (src/session.c)
against its natural-language specification.

The development shallowly embeds the functions of session.c over lists of
bytes (`List Nat`, each entry below 256 in all uses) and plain records for
the C structs.  External collaborators (libxml2, the transport) are modelled
through the narrow interface the core consumes; repository code that is not
part of src/ (netconf_internal.h constants, messages.c helpers) is modelled
from the specification and marked as such in the doc comment.
-/

namespace Libnetconf

/-- Byte sequence of an ASCII string; the C code works on NUL-terminated byte
strings, so all literals used here are NUL-free. -/
def strBytes (s : String) : List Nat :=
  s.data.map Char.toNat

/-- Contents of a byte buffer read as a C string: everything before the first
NUL byte.  Applied wherever the code calls `strdup`, `strcat`, `strcmp` or
hands a buffer to a string-consuming routine. -/
def cstr (l : List Nat) : List Nat :=
  l.takeWhile (fun b => b != 0)

/-- Whitespace test of C `isspace`, as skipped by `strtoul`. -/
def isSpaceB (b : Nat) : Bool :=
  b == 32 || (9 ≤ b && b ≤ 13)

/-- ASCII decimal digit test. -/
def isDigitB (b : Nat) : Bool :=
  48 ≤ b && b ≤ 57

/-- Value of a list of ASCII digit bytes read in base 10. -/
def digitsVal (l : List Nat) : Nat :=
  l.foldl (fun a d => a * 10 + (d - 48)) 0

/-- Modulus of `unsigned long` and `unsigned long long` on the LP64 target:
both are 64 bits wide. -/
def u64 : Nat := 2 ^ 64

/-- Model of C `strtoul(s, NULL, 10)` and `strtoull(s, NULL, 10)` (identical
on the LP64 target): skip leading whitespace, take an optional sign, consume
the longest decimal digit prefix; no digits give 0; overflow clamps to the
maximum; a minus sign negates in the unsigned type.  Called by
`nc_session_receive` on chunk-length fields (session.c:611) and on the
message-id attribute (session.c:669). -/
def strtoul10 (s : List Nat) : Nat :=
  let s1 := s.dropWhile isSpaceB
  let neg : Bool := s1.head? == some 45
  let s2 := if s1.head? == some 45 || s1.head? == some 43 then s1.tail else s1
  let v := min (digitsVal (s2.takeWhile isDigitB)) (u64 - 1)
  if neg then (u64 - v) % u64 else v

/-- Digit loop for `toDec`, structurally recursive on a fuel bound so that it
evaluates inside the kernel; any fuel above `n` gives the digits of `n`. -/
def toDecAux (fuel n : Nat) : List Nat :=
  match fuel with
  | 0 => []
  | fuel + 1 => if n < 10 then [48 + n] else toDecAux fuel (n / 10) ++ [48 + n % 10]

/-- ASCII decimal digits of `n`, most significant first: what `sprintf` with
an unsigned decimal conversion writes (session.c:727, session.c:332) and what
a conformant v1.1 sender puts in a chunk-length header. -/
def toDec (n : Nat) : List Nat :=
  toDecAux (n + 1) n

/-- Terminator bytes of NETCONF 1.0 framing.  Modelled from the spec:
`NC_V10_END_MSG` lives in netconf_internal.h, which is not under src/; the
spec fixes it as the six bytes of the sentinel `]]>]]>`. -/
def V10END : List Nat := [93, 93, 62, 93, 93, 62]

/-- Tail comparison of `nc_session_read_until` (session.c:519-524): once the
buffer holds at least as many bytes as the endtag, `strcmp` the endtag against
the buffer tail.  The byte after the tail is always NUL and the endtags used
are NUL-free, so the comparison is raw equality of the last bytes. -/
def tailMatch (S acc : List Nat) : Bool :=
  S.length ≤ acc.length && acc.drop (acc.length - S.length) == S

/-- Byte-at-a-time loop of `nc_session_read_until` (session.c:453-552): append
one byte, stop when the tail equals the endtag; running out of input (EOF or
transport error) is a fatal failure. -/
def ruGo (S : List Nat) : List Nat → List Nat → Option (List Nat × List Nat)
  | _, [] => none
  | acc, b :: rest =>
    if tailMatch S (acc ++ [b]) then some (acc ++ [b], rest) else ruGo S (acc ++ [b]) rest

/-- Function `nc_session_read_until`: the whole buffer (endtag included)
together with the unread rest of the input stream. -/
def readUntil (S input : List Nat) : Option (List Nat × List Nat) :=
  ruGo S [] input

/-- Function `nc_session_read_len` (session.c:360-431): read exactly `n`
bytes; EOF or a transport failure before that is fatal. -/
def readLen (n : Nat) (input : List Nat) : Option (List Nat × List Nat) :=
  if n ≤ input.length then some (input.take n, input.drop n) else none

/-- Framing decode of NETCONF 1.0: the NETCONFV10 branch of
`nc_session_receive` (session.c:583-589).  The buffer is returned through
`strdup` (truncated at the first NUL) while `len` counts the raw bytes read;
the code then writes a NUL at index `len - 1 - 6`, one position before the
start of the terminator, and the message handed to the XML parser is the
resulting C string. -/
def decodeV10 (input : List Nat) : Option (List Nat) :=
  match readUntil V10END input with
  | none => none
  | some (buf, _) =>
    let text := cstr buf
    let len := buf.length
    some (cstr (text.set (len - 1 - V10END.length) 0))

/-- Chunk loop of the NETCONFV11 branch of `nc_session_receive`
(session.c:590-644), with fuel for termination; each iteration consumes at
least one input byte, so `input.length + 1` fuel is never exhausted before the
input is.  `acc` is the message accumulated so far; the code appends each
chunk with `strcat`, so a chunk is cut at its first NUL byte. -/
def chunkLoop (fuel : Nat) (acc input : List Nat) : Option (List Nat) :=
  match fuel with
  | 0 => none
  | fuel + 1 =>
    match readUntil [10, 35] input with
    | none => none
    | some (_, r1) =>
      match readUntil [10] r1 with
      | none => none
      | some (field, r2) =>
        let chunk := cstr field
        if chunk == [35, 10] then
          some acc
        else
          let chunkLength := strtoul10 chunk
          if chunkLength == 0 then
            none
          else
            match readLen chunkLength r2 with
            | none => none
            | some (c, r3) => chunkLoop fuel (acc ++ cstr c) r3

/-- Framing decode of NETCONF 1.1 chunked framing. -/
def decodeV11 (input : List Nat) : Option (List Nat) :=
  chunkLoop (input.length + 1) [] input

/-- Negotiated protocol version, `NETCONFV10` or `NETCONFV11`.  The `default`
branch of `nc_session_receive` for other integers is unreachable in this
two-valued model. -/
inductive NcVersion
  | v10
  | v11
deriving DecidableEq

/-- Version dispatch of `nc_session_receive` (session.c:582). -/
def frameDecode : NcVersion → List Nat → Option (List Nat)
  | .v10 => decodeV10
  | .v11 => decodeV11

/-- View of a parsed document as session.c:666-692 consumes it: the root
element name, its message-id attribute (a NUL-free byte string when present),
and the names of the root's element children in order.  This models the
libxml2 document, an external collaborator. -/
structure XmlDoc where
  rootName : String
  rootMsgId : Option (List Nat)
  childNames : List String
deriving DecidableEq

/-- Reply classification tags `NC_REPLY_OK` and friends. -/
inductive ReplyType
  | ok
  | error
  | data
  | unknown
deriving DecidableEq

/-- Received message: the parsed message-id and the classification tag, the
two fields of `struct nc_msg` the core derives. -/
structure NcMsg where
  msgid : Nat
  type : ReplyType
deriving DecidableEq

/-- Outcome of `nc_session_receive`: a message, a clean failure
(EXIT_FAILURE), or undefined behaviour from a null or freed pointer
dereference. -/
inductive RecvOutcome
  | ok (m : NcMsg)
  | err
  | crash
deriving DecidableEq

/-- Message-id extraction and reply classification, session.c:666-692: the
message-id attribute of the document root through `strtoull` (absent gives
0), then the classification by root name and first-child name.  A root
`rpc-reply` with no children reaches `doc->children->children->name`, a null
dereference. -/
def interpretDoc (d : XmlDoc) : RecvOutcome :=
  let msgid := match d.rootMsgId with
    | some a => strtoul10 a
    | none => 0
  if d.rootName = "rpc-reply" then
    match d.childNames with
    | [] => .crash
    | c :: _ =>
      .ok ⟨msgid, if c = "ok" then .ok
                  else if c = "rpc-error" then .error
                  else if c = "data" then .data
                  else .unknown⟩
  else
    .ok ⟨msgid, .unknown⟩

/-- Function `nc_session_receive` (session.c:568-697).  `valid` is the entry
guard `session != NULL && session->hostname != NULL`; `parse` models
`xmlReadDoc`.  When the parse fails the code frees its buffers but falls
through without returning (session.c:660-664, the branch has no return
statement), so the next line dereferences the null document: modelled as
`.crash`. -/
def nc_session_receive (parse : List Nat → Option XmlDoc) (valid : Bool)
    (v : NcVersion) (stream : List Nat) : RecvOutcome :=
  if valid then
    match frameDecode v stream with
    | none => .err
    | some text =>
      match parse text with
      | none => .crash
      | some d => interpretDoc d
  else
    .err

/-- Modelled from the spec: `nc_reply_get_msgid` (messages.c, not under src/)
is the reply-msgid accessor consumed by `nc_session_recv_reply`. -/
def nc_reply_get_msgid (m : NcMsg) : Nat := m.msgid

/-- Return of `nc_session_recv_reply`: a message id (0 doubles as the failure
sentinel) or the propagated crash. -/
inductive ReplyRet
  | ret (n : Nat)
  | crash
deriving DecidableEq

/-- Function `nc_session_recv_reply` (session.c:699-709): 0 when
`nc_session_receive` fails, otherwise the received message-id. -/
def nc_session_recv_reply (parse : List Nat → Option XmlDoc) (valid : Bool)
    (v : NcVersion) (stream : List Nat) : ReplyRet :=
  match nc_session_receive parse valid v stream with
  | .ok m => .ret (nc_reply_get_msgid m)
  | .err => .ret 0
  | .crash => .crash

/-- Outgoing document as the send path manipulates it: root element name, the
message-id attribute, and the attached base namespace. -/
structure OutDoc where
  rootName : String
  msgAttr : Option (List Nat)
  ns : Option String
deriving DecidableEq

/-- Session fields consulted by `nc_session_send_rpc` and `nc_session_send`:
`valid` is the guard `session != NULL && session->hostname != NULL`;
`hasTransport` is `ssh_channel != NULL || fd_output != -1`; `msgid` is the
64-bit outgoing message-id counter. -/
structure SendSession where
  valid : Bool
  hasTransport : Bool
  version : NcVersion
  msgid : Nat
deriving DecidableEq

/-- Modelled from the spec: `nc_msg_dup` (messages.c, not under src/)
deep-copies the caller's document, so the copy starts out equal to the
original and later stamping is invisible to the caller. -/
def nc_msg_dup (d : OutDoc) : OutDoc := d

/-- Modelled from the spec: the base-namespace constants `NC_NS_BASE10` and
`NC_NS_BASE11` (netconf_internal.h, not under src/). -/
def ncNsBase : NcVersion → String
  | .v10 => "urn:ietf:params:xml:ns:netconf:base:1.0"
  | .v11 => "urn:ietf:params:xml:ns:netconf:base:1.1"

/-- Function `nc_session_send` (session.c:316-358): EXIT_FAILURE only when
there is neither an SSH channel nor an output fd; otherwise the framed
message is written out and the function returns EXIT_SUCCESS (the write loop
has no failure exit). -/
def nc_session_send (s : SendSession) (_msg : OutDoc) : Bool :=
  s.hasTransport

/-- Result of `nc_session_send_rpc`: the returned msgid (0 on failure), the
session with its updated counter, and the outgoing message as framed. -/
structure SendResult where
  ret : Nat
  session : SendSession
  sent : Option OutDoc
deriving DecidableEq

/-- Function `nc_session_send_rpc` (session.c:711-746): duplicate the
caller's document; when the root element is `rpc`, stamp the current counter
value as the message-id attribute and post-increment the counter
(session.c:727); attach the version's base namespace; send.  On send failure
the counter is decremented unconditionally — even when it was never
incremented — and 0 is returned; on success the return is the counter value
after the increment (session.c:744). -/
def nc_session_send_rpc (s : SendSession) (rpc : OutDoc) : SendResult :=
  if s.valid then
    let msg := nc_msg_dup rpc
    let stamp := rpc.rootName = "rpc"
    let msg := if stamp then { msg with msgAttr := some (toDec s.msgid) } else msg
    let s := if stamp then { s with msgid := (s.msgid + 1) % u64 } else s
    let msg := { msg with ns := some (ncNsBase s.version) }
    if nc_session_send s msg then
      ⟨s.msgid, s, some msg⟩
    else
      ⟨0, { s with msgid := (s.msgid + (u64 - 1)) % u64 }, some msg⟩
  else
    ⟨0, s, none⟩

/-- Slot of the capabilities pointer array: a URI string, the NULL sentinel,
or uninitialized memory (allocated but never written). -/
inductive Cell
  | uri (s : String)
  | null
  | junk
deriving DecidableEq

/-- Struct `nc_cpblts` as session.c uses it: item count, allocated capacity
(`list_size`), the slots, and the iteration cursor. -/
structure NcCpblts where
  items : Nat
  list_size : Nat
  store : List Cell
  iter : Nat
deriving DecidableEq

/-- Call `nc_cpblts_new(NULL)` (session.c:125-165): zeroed struct, capacity
10, slot 0 set to NULL, the other slots fresh from malloc. -/
def nc_cpblts_new_null : NcCpblts :=
  ⟨0, 10, (List.replicate 10 Cell.junk).set 0 Cell.null, 0⟩

/-- Function `nc_cpblts_add` (session.c:167-192): store the URI at index
`items`, increment `items`, double the capacity when `items` reaches it, then
write the NULL terminator at index `items + 1` — one slot past where the
stored URIs end.  On the resize (unreached in the claims settled here) the C
`realloc(list, list_size*2)` counts bytes rather than elements (spec open
question); the model keeps the accounting fields, with new slots
uninitialized. -/
def nc_cpblts_add (c : NcCpblts) (s : String) : Bool × NcCpblts :=
  if c.items > c.list_size then (false, c)
  else
    let st := c.store.set c.items (Cell.uri s)
    let items := c.items + 1
    let grow := items = c.list_size
    let st := if grow then st ++ List.replicate c.list_size Cell.junk else st
    let size := if grow then c.list_size * 2 else c.list_size
    (true, ⟨items, size, st.set (items + 1) Cell.null, c.iter⟩)

/-- Scan step `list[i] != NULL && strcmp(list[i], s) == 0` (session.c:208).
Comparing an uninitialized slot is undefined behaviour in C; the traces
settled in this file never scan one. -/
def cellMatches (c : Cell) (s : String) : Bool :=
  match c with
  | .uri t => t == s
  | _ => false

/-- Function `nc_cpblts_remove` (session.c:194-222): find the first matching
slot below `items`, free it, move the slot at `items - 1` into its place,
null that last slot, and decrement the capacity `list_size`; the item count
`items` is left unchanged. -/
def nc_cpblts_remove (c : NcCpblts) (s : String) : Bool × NcCpblts :=
  if c.items > c.list_size then (false, c)
  else
    match (List.range c.items).find? (fun i => cellMatches (c.store.getD i Cell.junk) s) with
    | none => (true, c)
    | some i =>
      let last := c.store.getD (c.items - 1) Cell.junk
      (true, ⟨c.items, c.list_size - 1, (c.store.set i last).set (c.items - 1) Cell.null, c.iter⟩)

/-- Function `nc_cpblts_iter_start` (session.c:225-231): nothing on NULL,
otherwise reset the cursor. -/
def nc_cpblts_iter_start (c : Option NcCpblts) : Option NcCpblts :=
  match c with
  | none => none
  | some c => some { c with iter := 0 }

/-- Copy `strdup(list[iter])`; duplicating a NULL or uninitialized slot is
undefined behaviour in C, unreached in the claims settled here. -/
def cellCopy : Cell → Option String
  | .uri t => some t
  | _ => none

/-- Function `nc_cpblts_iter_next` (session.c:233-244): NULL argument gives
NULL; the bound `iter > items - 1` is int arithmetic, so an empty set
compares `0 > -1` and stops; otherwise a copy of the slot under the cursor is
returned and the cursor advances.  The `c->list == NULL` guard of the C code
has no counterpart because the model's store always exists. -/
def nc_cpblts_iter_next (c : Option NcCpblts) : Option String × Option NcCpblts :=
  match c with
  | none => (none, none)
  | some c =>
    if (c.iter : Int) > (c.items : Int) - 1 then (none, some c)
    else (cellCopy (c.store.getD c.iter Cell.junk), some { c with iter := c.iter + 1 })

/-- Observable effect of `nc_cpblts_free` (session.c:102-123): nothing on
NULL; a structure with consistent counts has its strings and storage freed; an
inconsistent one is only warned about. -/
inductive FreeOutcome
  | noop
  | freed
  | warned
deriving DecidableEq

/-- Function `nc_cpblts_free` (session.c:102-123). -/
def nc_cpblts_free (c : Option NcCpblts) : FreeOutcome :=
  match c with
  | none => .noop
  | some c => if c.items ≤ c.list_size then .freed else .warned

/-- Session fields the read-only accessors consult. -/
structure NcSessionAcc where
  session_id : String
  version : Int
  libssh2_socket : Int
  fd_input : Int
  capabilities : Option NcCpblts
deriving DecidableEq

/-- Function `nc_session_get_id` (session.c:71-77): NULL gives NULL,
otherwise a copy of the session id. -/
def nc_session_get_id (s : Option NcSessionAcc) : Option String :=
  match s with
  | none => none
  | some s => some s.session_id

/-- Function `nc_session_get_version` (session.c:79-85). -/
def nc_session_get_version (s : Option NcSessionAcc) : Int :=
  match s with
  | none => -1
  | some s => s.version

/-- Function `nc_session_get_eventfd` (session.c:87-100): prefer the SSH
socket, then the input fd, else -1. -/
def nc_session_get_eventfd (s : Option NcSessionAcc) : Int :=
  match s with
  | none => -1
  | some s =>
    if s.libssh2_socket ≠ -1 then s.libssh2_socket
    else if s.fd_input ≠ -1 then s.fd_input
    else -1

/-- Function `nc_session_get_cpblts` (session.c:265-272). -/
def nc_session_get_cpblts (s : Option NcSessionAcc) : Option NcCpblts :=
  match s with
  | none => none
  | some s => s.capabilities

/-- Encoder of NETCONF 1.0 framing: the NETCONFV10 write path of
`nc_session_send` (session.c:339-355) emits the serialized message bytes
followed by the terminator. -/
def encodeV10 (payload : List Nat) : List Nat :=
  payload ++ V10END

/-- Modelled from the spec: a conformant v1.1 sender may split a message into
any number of chunks, each preceded by its own header of newline, hash and the
decimal chunk length ended by a newline, the whole followed by the four-byte
stream terminator (spec 4.2.2).  The repo's own sender (session.c:330-337)
always emits a single chunk of this shape. -/
def encodeChunks (parts : List (List Nat)) : List Nat :=
  (parts.map (fun p => [10, 35] ++ toDec p.length ++ [10] ++ p)).flatten ++ [10, 35, 35, 10]

/-- Child-element name constants compared against by session.c:680-684. -/
def nOk : String := "ok"

/-- Name of the error child element (session.c:682). -/
def nErr : String := "rpc-error"

/-- Name of the data child element (session.c:684). -/
def nData : String := "data"

/-- Instance of the `xmlReadDoc` collaborator that rejects every byte
sequence, modelling input that is not well-formed XML. -/
def parseNone : List Nat → Option XmlDoc := fun _ => none

/-- Concrete reply body used as a witness payload: a 19-byte element carrying
a message-id attribute of 7. -/
def sA7 : String := "<a message-id=\"7\"/>"

/-- Parsed form of `sA7` as the XML collaborator would deliver it. -/
def xmlA7 : XmlDoc := { rootName := "a", rootMsgId := some [55], childNames := [] }

/-- Instance of the `xmlReadDoc` collaborator that parses exactly the bytes
of `sA7`. -/
def parseA7 : List Nat → Option XmlDoc := fun t => if t = strBytes sA7 then some xmlA7 else none

/-- Wire bytes of a v1.1 message whose single chunk header carries the
non-decimal length field `19x` followed by the 19 payload bytes of `sA7` and
the stream terminator. -/
def streamA7 : List Nat := [10, 35, 49, 57, 120, 10] ++ strBytes sA7 ++ [10, 35, 35, 10]

/-- Concrete rpc-reply body used as a witness payload for classification. -/
def s9 : String := "<rpc-reply message-id=\"5\"><ok/></rpc-reply>"

/-- Parsed form of `s9` as the XML collaborator would deliver it. -/
def d9 : XmlDoc := { rootName := "rpc-reply", rootMsgId := some [53], childNames := [nOk] }

/-- Instance of the `xmlReadDoc` collaborator that parses exactly the bytes
of `s9`. -/
def parse9 : List Nat → Option XmlDoc := fun t => if t = strBytes s9 then some d9 else none

/-- URI used in the capability-set traces. -/
def uriX : String := "urn:x"

/-- Root element name that triggers message-id stamping (session.c:726). -/
def rpcRoot : String := "rpc"

/-- Root element name of a message that is not stamped, such as a hello. -/
def helloRoot : String := "hello"

/-! ## Supporting lemmas on digits, C strings and the read primitives -/

theorem toDecAux_congr (n : Nat) : ∀ f g, n < f → n < g → toDecAux f n = toDecAux g n := by
  induction n using Nat.strong_induction_on with
  | _ n ih =>
    intro f g hf hg
    cases f with
    | zero => omega
    | succ f =>
      cases g with
      | zero => omega
      | succ g =>
        by_cases h : n < 10
        · simp [toDecAux, h]
        · have hd : n / 10 < n := Nat.div_lt_self (by omega) (by omega)
          simp only [toDecAux, if_neg h]
          rw [ih (n / 10) hd f g (by omega) (by omega)]

theorem toDec_unfold (n : Nat) :
    toDec n = if n < 10 then [48 + n] else toDec (n / 10) ++ [48 + n % 10] := by
  by_cases h : n < 10
  · simp [toDec, toDecAux, h]
  · have hd : n / 10 < n := Nat.div_lt_self (by omega) (by omega)
    have h1 : toDec n = toDecAux n (n / 10) ++ [48 + n % 10] := by
      simp [toDec, toDecAux, h]
    have h2 : toDecAux n (n / 10) = toDec (n / 10) :=
      toDecAux_congr (n / 10) n (n / 10 + 1) hd (by omega)
    rw [h1, h2, if_neg h]

theorem toDec_digits (n : Nat) : ∀ d ∈ toDec n, 48 ≤ d ∧ d ≤ 57 := by
  induction n using Nat.strong_induction_on with
  | _ n ih =>
    rw [toDec_unfold]
    by_cases h : n < 10
    · simp only [if_pos h]
      intro d hd
      simp only [List.mem_singleton] at hd
      omega
    · have hdlt : n / 10 < n := Nat.div_lt_self (by omega) (by omega)
      simp only [if_neg h]
      intro d hd
      rcases List.mem_append.mp hd with hmem | hmem
      · exact ih (n / 10) hdlt d hmem
      · have hm : n % 10 < 10 := Nat.mod_lt n (by omega)
        simp only [List.mem_singleton] at hmem
        omega

theorem toDec_ne_nil (n : Nat) : toDec n ≠ [] := by
  rw [toDec_unfold]
  by_cases h : n < 10 <;> simp [h]

theorem digitsVal_append (xs : List Nat) (d : Nat) :
    digitsVal (xs ++ [d]) = digitsVal xs * 10 + (d - 48) := by
  simp [digitsVal, List.foldl_append]

theorem digitsVal_toDec (n : Nat) : digitsVal (toDec n) = n := by
  induction n using Nat.strong_induction_on with
  | _ n ih =>
    rw [toDec_unfold]
    by_cases h : n < 10
    · simp only [if_pos h, digitsVal, List.foldl_cons, List.foldl_nil]
      omega
    · have hdlt : n / 10 < n := Nat.div_lt_self (by omega) (by omega)
      simp only [if_neg h, digitsVal_append, ih (n / 10) hdlt]
      omega

theorem cstr_eq_self (l : List Nat) (h : (0 : Nat) ∉ l) : cstr l = l := by
  induction l with
  | nil => rfl
  | cons b t ih =>
    simp only [List.mem_cons, not_or] at h
    have hb : (b != 0) = true := by
      simp only [bne_iff_ne, ne_eq]
      exact fun hb0 => h.1 hb0.symm
    have ih2 := ih h.2
    simp only [cstr] at ih2 ⊢
    simp [List.takeWhile_cons, hb, ih2]

theorem takeWhile_all_append (p : Nat → Bool) (l r : List Nat)
    (hl : ∀ x ∈ l, p x = true) : (l ++ r).takeWhile p = l ++ r.takeWhile p := by
  induction l with
  | nil => simp
  | cons b t ih =>
    have hb : p b = true := hl b (by simp)
    have ih2 := ih (fun x hx => hl x (by simp [hx]))
    simp [List.takeWhile_cons, hb, ih2]

theorem takeWhile_head_false (p : Nat → Bool) (r : List Nat)
    (hr : ∀ b, r.head? = some b → p b = false) : r.takeWhile p = [] := by
  cases r with
  | nil => rfl
  | cons b t =>
    have hb : p b = false := hr b rfl
    simp [List.takeWhile_cons, hb]

theorem digit_not_space (b : Nat) (h : isDigitB b = true) : isSpaceB b = false := by
  simp only [isDigitB, Bool.and_eq_true, decide_eq_true_eq] at h
  simp only [isSpaceB, Bool.or_eq_false_iff, Bool.and_eq_false_iff, beq_eq_false_iff_ne,
    ne_eq, decide_eq_false_iff_not]
  omega

theorem strtoul10_digits (l r : List Nat)
    (hl : ∀ d ∈ l, isDigitB d = true) (hne : l ≠ [])
    (hr : ∀ b, r.head? = some b → isDigitB b = false) :
    strtoul10 (l ++ r) = min (digitsVal l) (u64 - 1) := by
  cases l with
  | nil => exact absurd rfl hne
  | cons d ds =>
    have hd : isDigitB d = true := hl d (by simp)
    have hdig : 48 ≤ d ∧ d ≤ 57 := by
      simpa [isDigitB, Bool.and_eq_true, decide_eq_true_eq] using hd
    have hds : isSpaceB d = false := digit_not_space d hd
    have hdrop : List.dropWhile isSpaceB (d :: (ds ++ r)) = d :: (ds ++ r) := by
      simp [List.dropWhile_cons, hds]
    have hminus : ¬(d = 45) := by omega
    have hplus : ¬(d = 43) := by omega
    have htake : (d :: (ds ++ r)).takeWhile isDigitB = d :: ds := by
      rw [show (d :: (ds ++ r)) = (d :: ds) ++ r from by simp]
      rw [takeWhile_all_append isDigitB (d :: ds) r hl,
        takeWhile_head_false isDigitB r hr, List.append_nil]
    simp [strtoul10, hdrop, hminus, hplus, htake]

theorem strtoul10_toDec (n : Nat) (h : n < u64) :
    strtoul10 (toDec n ++ [10]) = n := by
  rw [strtoul10_digits (toDec n) [10]
    (fun d hd => by
      have := toDec_digits n d hd
      simp only [isDigitB, Bool.and_eq_true, decide_eq_true_eq]
      omega)
    (toDec_ne_nil n)
    (fun b hb => by
      simp only [List.head?_cons, Option.some.injEq] at hb
      subst hb
      decide)]
  rw [digitsVal_toDec]
  have hle : n ≤ u64 - 1 := by
    unfold u64 at h ⊢
    omega
  exact Nat.min_eq_left hle

theorem tailMatch_single (acc : List Nat) (b c : Nat) :
    tailMatch [b] (acc ++ [c]) = (c == b) := by
  simp only [tailMatch, List.length_append, List.length_cons, List.length_nil,
    List.length_singleton, Nat.add_sub_cancel]
  rw [List.drop_left]
  simp

theorem ruGo_nl (field : List Nat) : ∀ (acc rest : List Nat), 10 ∉ field →
    ruGo [10] acc (field ++ 10 :: rest) = some (acc ++ (field ++ [10]), rest) := by
  induction field with
  | nil =>
    intro acc rest _
    simp only [List.nil_append, ruGo, tailMatch_single]
    simp
  | cons f fs ih =>
    intro acc rest hmem
    simp only [List.mem_cons, not_or] at hmem
    have hne : (f == 10) = false := by
      simp only [beq_eq_false_iff_ne, ne_eq]
      exact fun h => hmem.1 h.symm
    have step : ruGo [10] acc ((f :: fs) ++ 10 :: rest) =
        ruGo [10] (acc ++ [f]) (fs ++ 10 :: rest) := by
      simp only [List.cons_append, ruGo, tailMatch_single, hne]
      simp
    rw [step, ih (acc ++ [f]) rest hmem.2]
    simp

theorem readUntil_nl (field rest : List Nat) (h : 10 ∉ field) :
    readUntil [10] (field ++ 10 :: rest) = some (field ++ [10], rest) := by
  unfold readUntil
  rw [ruGo_nl field [] rest h]
  simp

theorem readUntil_nlhash (rest : List Nat) :
    readUntil [10, 35] (10 :: 35 :: rest) = some ([10, 35], rest) := by
  simp [readUntil, ruGo, tailMatch]

theorem readLen_exact (p rest : List Nat) :
    readLen p.length (p ++ rest) = some (p, rest) := by
  simp [readLen, List.take_left, List.drop_left]

theorem ten_not_mem_toDec (n : Nat) : 10 ∉ toDec n := by
  intro h
  have := toDec_digits n 10 h
  omega

theorem cstr_toDec_nl (n : Nat) : cstr (toDec n ++ [10]) = toDec n ++ [10] := by
  apply cstr_eq_self
  intro h
  rcases List.mem_append.mp h with hmem | hmem
  · have := toDec_digits n 0 hmem
    omega
  · simp at hmem

theorem toDec_nl_ne_term (n : Nat) : ((toDec n ++ [10] : List Nat) == [35, 10]) = false := by
  simp only [beq_eq_false_iff_ne, ne_eq]
  intro h
  cases hd : toDec n with
  | nil => exact toDec_ne_nil n hd
  | cons a t =>
    rw [hd] at h
    simp only [List.cons_append, List.cons.injEq] at h
    have := toDec_digits n a (by rw [hd]; simp)
    omega

theorem chunkLoop_term (f : Nat) (acc : List Nat) :
    chunkLoop (f + 1) acc [10, 35, 35, 10] = some acc := by
  have h1 := readUntil_nlhash [35, 10]
  have h2 : readUntil [10] ([35] ++ 10 :: []) = some ([35] ++ [10], []) :=
    readUntil_nl [35] [] (by decide)
  simp only [List.cons_append, List.nil_append] at h2
  have h3 : cstr [35, 10] = [35, 10] := cstr_eq_self _ (by decide)
  simp [chunkLoop, h1, h2, h3]

theorem chunkLoop_step (f : Nat) (acc L rest : List Nat)
    (hL : L ≠ []) (hz : (0 : Nat) ∉ L) (hlen : L.length < u64) :
    chunkLoop (f + 1) acc (10 :: 35 :: (toDec L.length ++ 10 :: (L ++ rest))) =
      chunkLoop f (acc ++ L) rest := by
  have h1 := readUntil_nlhash (toDec L.length ++ 10 :: (L ++ rest))
  have h2 := readUntil_nl (toDec L.length) (L ++ rest) (ten_not_mem_toDec L.length)
  have h3 := cstr_toDec_nl L.length
  have h4 := toDec_nl_ne_term L.length
  have h5 := strtoul10_toDec L.length hlen
  have h6 : (L.length == 0) = false := by
    simp [beq_eq_false_iff_ne, List.length_eq_zero, hL]
  have h7 := readLen_exact L rest
  have h8 := cstr_eq_self L hz
  simp [chunkLoop, h1, h2, h3, h4, h5, h6, h7, h8]

theorem chunkLoop_encode (parts : List (List Nat)) : ∀ (acc : List Nat) (fuel : Nat),
    parts.length < fuel →
    (∀ p ∈ parts, p ≠ [] ∧ (0 : Nat) ∉ p ∧ p.length < u64) →
    chunkLoop fuel acc
      ((parts.map (fun p => [10, 35] ++ toDec p.length ++ [10] ++ p)).flatten ++ [10, 35, 35, 10])
      = some (acc ++ parts.flatten) := by
  induction parts with
  | nil =>
    intro acc fuel hf _
    obtain ⟨f, rfl⟩ : ∃ f, fuel = f + 1 := ⟨fuel - 1, by omega⟩
    simpa using chunkLoop_term f acc
  | cons p ps ih =>
    intro acc fuel hf hp
    obtain ⟨f, rfl⟩ : ∃ f, fuel = f + 1 := ⟨fuel - 1, by omega⟩
    obtain ⟨hpne, hpz, hplen⟩ := hp p (by simp)
    have hstream :
        (((p :: ps).map (fun q => [10, 35] ++ toDec q.length ++ [10] ++ q)).flatten
            ++ [10, 35, 35, 10])
          = 10 :: 35 :: (toDec p.length ++ 10 ::
              (p ++ ((ps.map (fun q => [10, 35] ++ toDec q.length ++ [10] ++ q)).flatten
                ++ [10, 35, 35, 10]))) := by
      simp [List.append_assoc]
    rw [hstream, chunkLoop_step f acc p _ hpne hpz hplen,
      ih (acc ++ p) f (by simpa using Nat.lt_of_succ_lt_succ hf)
        (fun q hq => hp q (by simp [hq]))]
    simp

theorem encode_flatten_len (parts : List (List Nat)) :
    parts.length ≤ ((parts.map (fun p => [10, 35] ++ toDec p.length ++ [10] ++ p)).flatten).length := by
  induction parts with
  | nil => simp
  | cons p ps ih =>
    simp only [List.map_cons, List.flatten_cons, List.length_append]
    simp only [List.length_cons]
    omega

/-! ## Claim theorems -/

/-- C1: the claim states that a successful `nc_session_send_rpc` on a
document with root `rpc` returns the message-id value stamped into the
outgoing message, the first successful send returning 1.  The code stamps the
pre-increment counter value but returns the post-increment one
(session.c:727 and session.c:744): on a fresh session the outgoing message
carries message-id `1` (byte 49) while the call returns 2, not 1. -/
theorem send_rpc_return_vs_stamp :
    let s : SendSession := ⟨true, true, .v10, 1⟩
    let r := nc_session_send_rpc s { rootName := rpcRoot, msgAttr := none, ns := none }
    r.sent = some { rootName := rpcRoot, msgAttr := some [49], ns := some (ncNsBase .v10) } ∧
    r.ret = 2 ∧ r.ret ≠ 1 := by
  decide

/-- C2: the claim states that v1.0 encode-then-decode returns exactly the
original payload with no byte lost.  The decoder writes the cut one byte too
early (session.c:587, index `len - 1 - 6` instead of `len - 6`), so the
payload loses its final byte: bytes `abc` come back as `ab`. -/
theorem v10_decode_drops_last_byte :
    decodeV10 (encodeV10 [97, 98, 99]) = some [97, 98] ∧
    decodeV10 (encodeV10 [97, 98, 99]) ≠ some [97, 98, 99] := by
  decide

/-- C3: the claim states that a failed `send_rpc` leaves the counter
unchanged whatever the top-level element.  For a non-`rpc` root the counter
is never incremented, yet the failure path decrements it unconditionally
(session.c:741): a failed send of a `hello` document moves the counter from 5
to 4. -/
theorem send_rpc_fail_nonrpc_decrements :
    let s : SendSession := ⟨true, false, .v10, 5⟩
    let r := nc_session_send_rpc s { rootName := helloRoot, msgAttr := none, ns := none }
    r.ret = 0 ∧ r.session.msgid = 4 ∧ r.session.msgid ≠ 5 := by
  decide

/-- C4: the claim states that `items ≤ capacity` is preserved by every
sequence of capability-set operations.  `nc_cpblts_remove` decrements the
capacity but never the item count (session.c:215-218), so six adds followed
by five removes of the same URI leave items = 6 above capacity = 5. -/
theorem cpblts_items_exceed_capacity :
    let a : NcCpblts → NcCpblts := fun c => (nc_cpblts_add c uriX).2
    let r : NcCpblts → NcCpblts := fun c => (nc_cpblts_remove c uriX).2
    let e := r (r (r (r (r (a (a (a (a (a (a nc_cpblts_new_null))))))))))
    e.items = 6 ∧ e.list_size = 5 ∧ ¬e.items ≤ e.list_size := by
  decide

/-- C5: the claim states that after every capability-set operation the entry
at index `items` is the null terminator.  `nc_cpblts_add` writes the
terminator at `items + 1` after incrementing (session.c:189), so after one
add to a fresh empty set the entry at index items = 1 is uninitialized memory
while the terminator lands at index 2. -/
theorem cpblts_add_terminator_off_by_one :
    let c : NcCpblts := (nc_cpblts_add nc_cpblts_new_null uriX).2
    c.items = 1 ∧ c.store.getD c.items Cell.junk = Cell.junk ∧
    c.store.getD c.items Cell.junk ≠ Cell.null ∧
    c.store.getD (c.items + 1) Cell.junk = Cell.null := by
  decide

/-- C6: the claim states that a framed message whose bytes fail to parse as
XML makes `recv_reply` return the failure sentinel.  The parse-failure branch
of `nc_session_receive` frees its buffers but has no return statement
(session.c:660-663), so execution continues into a dereference of the null
document: on a v1.0 frame carrying the non-XML bytes `xy` the model reaches
the crash outcome instead of the sentinel. -/
theorem recv_parse_failure_crashes :
    nc_session_receive parseNone true .v10 (encodeV10 [120, 121]) = .crash ∧
    nc_session_recv_reply parseNone true .v10 (encodeV10 [120, 121]) = .crash ∧
    nc_session_recv_reply parseNone true .v10 (encodeV10 [120, 121]) ≠ .ret 0 := by
  decide

/-- C7 counterexample: the claim states that every chunk header carrying a
non-decimal length makes the v1.1 decoder report a fatal framing error and
`recv_reply` return the failure sentinel.  On the stream whose header field
is `19x` — not a decimal numeral — `strtoul` reads the prefix 19
(session.c:611), the decoder succeeds, and `recv_reply` hands back message-id
7. -/
theorem v11_nondecimal_length_accepted :
    decodeV11 streamA7 = some (strBytes sA7) ∧
    decodeV11 streamA7 ≠ none ∧
    nc_session_recv_reply parseA7 true .v11 streamA7 = .ret 7 := by
  decide

/-- C7 (amended): a v1.1 chunk header whose length field parses to zero under
`strtoul` semantics — a literal zero or a field with no leading decimal
digits — is a fatal framing error: the decoder fails, `nc_session_receive`
returns EXIT_FAILURE and `nc_session_recv_reply` returns the 0 sentinel
(session.c:611-615).  A field with a nonzero decimal prefix is instead
accepted with that prefix as the length. -/
theorem v11_zero_length_framing_error (parse : List Nat → Option XmlDoc)
    (field rest : List Nat) (hnl : 10 ∉ field)
    (hterm : (cstr (field ++ [10]) == [35, 10]) = false)
    (hzero : strtoul10 (cstr (field ++ [10])) = 0) :
    decodeV11 ([10, 35] ++ (field ++ 10 :: rest)) = none ∧
    nc_session_receive parse true .v11 ([10, 35] ++ (field ++ 10 :: rest)) = .err ∧
    nc_session_recv_reply parse true .v11 ([10, 35] ++ (field ++ 10 :: rest)) = .ret 0 := by
  have hdec : decodeV11 ([10, 35] ++ (field ++ 10 :: rest)) = none := by
    unfold decodeV11
    have h1 := readUntil_nlhash (field ++ 10 :: rest)
    have h2 := readUntil_nl field rest hnl
    have h6 : (strtoul10 (cstr (field ++ [10])) == 0) = true := by simp [hzero]
    simp [chunkLoop, h1, h2, hterm, h6]
  have hdec' : decodeV11 (10 :: 35 :: (field ++ 10 :: rest)) = none := by
    simpa using hdec
  refine ⟨hdec, ?_, ?_⟩
  · simp [nc_session_receive, frameDecode, hdec']
  · simp [nc_session_recv_reply, nc_session_receive, frameDecode, hdec']

/-- C7 witness: the amended theorem applied to the concrete stream whose
header carries the length field `0`. -/
theorem v11_zero_length_framing_error_witness :
    decodeV11 ([10, 35] ++ ([48] ++ 10 :: [])) = none ∧
    nc_session_receive parseNone true .v11 ([10, 35] ++ ([48] ++ 10 :: [])) = .err ∧
    nc_session_recv_reply parseNone true .v11 ([10, 35] ++ ([48] ++ 10 :: [])) = .ret 0 :=
  v11_zero_length_framing_error parseNone [48] [] (by decide) (by decide) (by decide)

/-- C8 counterexample: the claim states that the v1.1 decoder reassembles
every payload exactly, for every chunking.  The accumulation uses `strcat`
(session.c:637), which stops at the first NUL byte: the three-byte payload
60, 0, 62 sent as a single chunk comes back as the single byte 60. -/
theorem v11_nul_byte_truncated :
    decodeV11 (encodeChunks [[60, 0, 62]]) = some [60] ∧
    decodeV11 (encodeChunks [[60, 0, 62]]) ≠ some ([[60, 0, 62]] : List (List Nat)).flatten := by
  decide

/-- C8 (amended): for every non-empty payload of non-NUL bytes and every way
of splitting it into one or more non-empty chunks (each shorter than 2^64,
the range of the C length type), the v1.1 decoder reassembles exactly the
original payload bytes in order (session.c:590-644). -/
theorem v11_chunked_reassembly (parts : List (List Nat))
    (_hne : parts ≠ [])
    (hp : ∀ p ∈ parts, p ≠ [] ∧ (0 : Nat) ∉ p ∧ p.length < u64) :
    decodeV11 (encodeChunks parts) = some parts.flatten := by
  have hlen := encode_flatten_len parts
  unfold decodeV11 encodeChunks
  have h := chunkLoop_encode parts []
    (((parts.map (fun p : List Nat => [10, 35] ++ toDec p.length ++ [10] ++ p)).flatten
        ++ [10, 35, 35, 10]).length + 1)
    (by
      simp only [List.length_append, List.length_cons, List.length_nil]
      omega)
    hp
  simpa using h

/-- C8 witness: the amended theorem applied to the payload `hello` split into
chunks of sizes 2 and 3. -/
theorem v11_chunked_reassembly_witness :
    decodeV11 (encodeChunks [[104, 101], [108, 108, 111]]) = some [104, 101, 108, 108, 111] := by
  have h := v11_chunked_reassembly [[104, 101], [108, 108, 111]] (by decide) (by decide)
  simpa using h

/-- C9: every successfully received and parsed message is classified exactly
as the claim enumerates (session.c:666-692): a root `rpc-reply` whose first
child is `ok`, `rpc-error` or `data` gives the OK, ERROR or DATA tag, any
other first child gives UNKNOWN, any other root gives UNKNOWN; and the
returned msgid is the root's message-id attribute read as a decimal unsigned
integer, or 0 when the attribute is absent.  The hypothesis on `hchild`
guards the case the claim does not enumerate: a childless `rpc-reply` root
makes the code dereference a null child pointer. -/
theorem recv_reply_classification (parse : List Nat → Option XmlDoc)
    (v : NcVersion) (stream text : List Nat) (d : XmlDoc)
    (hframe : frameDecode v stream = some text)
    (hparse : parse text = some d)
    (hchild : d.rootName = "rpc-reply" → d.childNames ≠ []) :
    ∃ m : NcMsg,
      nc_session_receive parse true v stream = .ok m ∧
      nc_session_recv_reply parse true v stream = .ret m.msgid ∧
      (d.rootName = "rpc-reply" → d.childNames.head? = some nOk → m.type = .ok) ∧
      (d.rootName = "rpc-reply" → d.childNames.head? = some nErr → m.type = .error) ∧
      (d.rootName = "rpc-reply" → d.childNames.head? = some nData → m.type = .data) ∧
      (∀ c, d.rootName = "rpc-reply" → d.childNames.head? = some c →
        c ≠ nOk → c ≠ nErr → c ≠ nData → m.type = .unknown) ∧
      (d.rootName ≠ "rpc-reply" → m.type = .unknown) ∧
      (d.rootMsgId = none → m.msgid = 0) ∧
      (∀ a, d.rootMsgId = some a → (∀ b ∈ a, isDigitB b = true) → a ≠ [] →
        digitsVal a < u64 → m.msgid = digitsVal a) := by
  have hrecv : nc_session_receive parse true v stream = interpretDoc d := by
    simp [nc_session_receive, hframe, hparse]
  have hmsgid : ∀ m0 : Nat,
      (match d.rootMsgId with | some a => strtoul10 a | none => 0) = m0 →
      ((d.rootMsgId = none → m0 = 0) ∧
        (∀ a, d.rootMsgId = some a → (∀ b ∈ a, isDigitB b = true) → a ≠ [] →
          digitsVal a < u64 → m0 = digitsVal a)) := by
    intro m0 hm0
    constructor
    · intro hnone
      rw [hnone] at hm0
      simpa using hm0.symm
    · intro a ha hdig hane hbound
      rw [ha] at hm0
      simp only at hm0
      have hs := strtoul10_digits a [] hdig hane (fun b hb => by simp at hb)
      rw [List.append_nil] at hs
      rw [← hm0, hs]
      have : digitsVal a ≤ u64 - 1 := by
        unfold u64 at hbound ⊢
        omega
      exact Nat.min_eq_left this
  by_cases hr : d.rootName = "rpc-reply"
  · cases hc : d.childNames with
    | nil => exact absurd hc (hchild hr)
    | cons c cs =>
      have hint : interpretDoc d = .ok
          ⟨(match d.rootMsgId with | some a => strtoul10 a | none => 0),
            if c = "ok" then .ok else if c = "rpc-error" then .error
            else if c = "data" then .data else .unknown⟩ := by
        simp [interpretDoc, hr, hc]
      obtain ⟨h8, h9⟩ := hmsgid _ rfl
      refine ⟨_, hrecv.trans hint, ?_, ?_, ?_, ?_, ?_, ?_, h8, h9⟩
      · simp [nc_session_recv_reply, hrecv, hint, nc_reply_get_msgid]
      · intro _ hhead
        simp only [List.head?_cons, Option.some.injEq] at hhead
        subst hhead
        simp [nOk]
      · intro _ hhead
        simp only [List.head?_cons, Option.some.injEq] at hhead
        subst hhead
        simp [nErr]
      · intro _ hhead
        simp only [List.head?_cons, Option.some.injEq] at hhead
        subst hhead
        simp [nData]
      · intro c2 _ hhead hno hnerr hndata
        simp only [List.head?_cons, Option.some.injEq] at hhead
        subst hhead
        simp only [nOk] at hno
        simp only [nErr] at hnerr
        simp only [nData] at hndata
        simp [hno, hnerr, hndata]
      · intro h
        exact absurd hr h
  · have hint : interpretDoc d = .ok
        ⟨(match d.rootMsgId with | some a => strtoul10 a | none => 0), .unknown⟩ := by
      simp [interpretDoc, hr]
    obtain ⟨h8, h9⟩ := hmsgid _ rfl
    refine ⟨_, hrecv.trans hint, ?_, ?_, ?_, ?_, ?_, ?_, h8, h9⟩
    · simp [nc_session_recv_reply, hrecv, hint, nc_reply_get_msgid]
    · intro h
      exact absurd h hr
    · intro h
      exact absurd h hr
    · intro h
      exact absurd h hr
    · intro c2 h
      exact absurd h hr
    · intro _
      rfl

/-- C9 witness: the classification theorem applied to a concrete v1.0 frame
carrying an rpc-reply with message-id 5 and an ok child. -/
theorem recv_reply_classification_witness :
    ∃ m : NcMsg,
      nc_session_receive parse9 true .v10 (encodeV10 (strBytes s9 ++ [10])) = .ok m ∧
      m.type = .ok ∧ m.msgid = 5 := by
  obtain ⟨m, h1, _h2, h3, _, _, _, _, _, h9⟩ :=
    recv_reply_classification parse9 .v10 (encodeV10 (strBytes s9 ++ [10]))
      (strBytes s9) d9 (by decide) (by decide) (by decide)
  refine ⟨m, h1, h3 (by decide) (by decide), ?_⟩
  have := h9 [53] (by decide) (by decide) (by decide) (by decide)
  simpa [digitsVal] using this

/-- C10: every public accessor and capability-set operation is total on a
NULL argument (session.c:73, 81, 89, 106, 227, 235, 267): the getters return
NULL or -1, the iterator returns NULL, and free and iter-start return without
effect; no NULL pointer is dereferenced. -/
theorem null_argument_totality :
    nc_session_get_id none = none ∧
    nc_session_get_cpblts none = none ∧
    nc_session_get_version none = -1 ∧
    nc_session_get_eventfd none = -1 ∧
    (nc_cpblts_iter_next none).1 = none ∧
    nc_cpblts_free none = .noop ∧
    nc_cpblts_iter_start none = none := by
  decide

end Libnetconf
